import Mathlib

/-!
# Verification of the open-viper-loader protocol stack

Shallow embedding of the Viper GC chip programmer: the host-side signal
encoder and chip protocol (viper_loader.c), the host serial streaming layer
(arduino_serial.c) and the bridge firmware (viper_arduino_bridge.ino).

Machine integers are modelled as `Nat` with explicit truncation (`% 256` for
`uint8_t`, `% 2 ^ 32` for `uint32_t`).  The electrical bus is modelled as an
explicit state: an oracle stream of input-line samples plus a log of bus
events (output-line writes, input-line samples, sleeps).  Loops carry a fuel
argument where the C loop is bounded by data already in scope.
-/

/-! ## Bus events

One `BusEv` records one side effect on the electrical interface to the chip:
a write of the output lines, a sample of the input lines, or a delay.
-/

inductive BusEv where
  | out (v : Nat)
  | inp (v : Nat)
  | sleepUs (n : Nat)
deriving DecidableEq

/-- The 5-bit pentad payloads carried by a list of bus events: each
strobe-low write of the output lines (bit 4 clear) starts one pentad, whose
payload is recovered exactly as `outp` encodes it (low 4 bits from the low
wires, bit 4 from wire 5). -/
def pentadPayloads (evs : List BusEv) : List Nat :=
  evs.filterMap fun e =>
    match e with
    | BusEv.out v =>
      if v &&& 0x10 = 0 then some ((v &&& 0xf) ||| (if v &&& 0x20 != 0 then 0x10 else 0))
      else none
    | _ => none

/-- Sleeps (in microseconds) recorded in a list of bus events. -/
def sleepsOf (evs : List BusEv) : List Nat :=
  evs.filterMap fun e =>
    match e with
    | BusEv.sleepUs n => some n
    | _ => none

/-- Number of input-line samples recorded in a list of bus events. -/
def inpCount (evs : List BusEv) : Nat :=
  (evs.filterMap fun e =>
    match e with
    | BusEv.inp v => some v
    | _ => none).length

namespace Host

/-! ## Host implementation (viper_loader.c)

The `g_cfg.port`/serial dispatch of `_outb`/`_inb` is abstracted: `_outb`
appends the written byte to the event log, `_inb` consumes the next value of
the input-sample oracle.  `safe_mode` is an explicit parameter (the
`g_cfg.safe_mode` global, true by default). -/

def CMD_RESET : Nat := 0x00
def CMD_ERASE : Nat := 0x03
def CMD_WRITE_BYTE : Nat := 0x05
def CMD_READ : Nat := 0x0d
def MASK_CHIP_DATA : Nat := 0x10
def MASK_CHIP_ERR : Nat := 0x08
def BIOS_SIZE : Nat := 0x20000

/-- Host bus state: the oracle stream of bytes the status register will
return (consumed one per `_inb` call) and the log of bus events so far. -/
structure Bus where
  ins : Nat → Nat
  evs : List BusEv

/-- `_outb(data)`: write a byte to the output lines (`uint8_t` argument). -/
def outbB (data : Nat) (b : Bus) : Bus :=
  { b with evs := b.evs ++ [BusEv.out (data % 256)] }

/-- `_inb()`: sample the status register; consumes the head of the oracle. -/
def inbB (b : Bus) : Nat × Bus :=
  (b.ins 0 % 256,
   { ins := fun k => b.ins (k + 1), evs := b.evs ++ [BusEv.inp (b.ins 0 % 256)] })

/-- The loop condition of `safe_mode_check`:
`(high && r != 0) || (!high && r == 0)` with `r = _inb() & MASK_CHIP_ERR`. -/
def smcPass (high : Bool) (v : Nat) : Bool :=
  (high && (v &&& MASK_CHIP_ERR) != 0) || (!high && (v &&& MASK_CHIP_ERR) == 0)

/-- The retry loop of `safe_mode_check`, `fuel = MAX_TRIES - tries`.
After a failed sample it sleeps `(1 << tries) * 125` microseconds. -/
def smcGo (high : Bool) (fuel tries : Nat) (b : Bus) : Nat × Bus :=
  match fuel with
  | 0 => (1, b)
  | fuel + 1 =>
    let s := inbB b
    if smcPass high s.1 then (0, s.2)
    else
      smcGo high fuel (tries + 1)
        { s.2 with evs := s.2.evs ++ [BusEv.sleepUs ((1 <<< tries) * 125)] }

/-- `safe_mode_check(high)`: up to `MAX_TRIES = 4` attempts. -/
def safe_mode_check (high : Bool) (b : Bus) : Nat × Bus :=
  smcGo high 4 0 b

/-- The 6-wire encoding computed at the start of `outp`:
low 4 bits of the pentad on wires 0-3, bit 4 of the pentad on wire 5. -/
def formatted_data (data : Nat) : Nat :=
  let fd := (data % 256) &&& 0xf
  if (data % 256) &&& 0x10 != 0 then fd ||| 0x20 else fd

/-- `outp(data)`: emit one pentad (strobe-low write, handshake, strobe-high
write, handshake); returns 1 on a handshake failure, 0 on success. -/
def outp (safe_mode : Bool) (data : Nat) (b : Bus) : Nat × Bus :=
  let b1 := outbB (formatted_data data) b
  let c1 := if safe_mode then safe_mode_check true b1 else (0, b1)
  if c1.1 ≠ 0 then (1, c1.2)
  else
    let b2 := outbB (formatted_data data ||| 0x10) c1.2
    let c2 := if safe_mode then safe_mode_check false b2 else (0, b2)
    if c2.1 ≠ 0 then (1, c2.2) else (0, c2.2)

/-- The bit loop of `read_byte` over bit positions `i, i+1, ...` (`fuel`
positions left): sample the input line, fold bit 4 into the byte from the
top, acknowledge with a pentad carrying the bit index. -/
def rbGo (safe : Bool) (i fuel data : Nat) (b : Bus) : Nat × Nat × Bus :=
  match fuel with
  | 0 => (0, data, b)
  | fuel + 1 =>
    let s := inbB b
    let data := ((s.1 &&& MASK_CHIP_DATA) <<< 3) ||| data >>> 1
    let o := outp safe i s.2
    if o.1 ≠ 0 then (1, data, o.2)
    else rbGo safe (i + 1) fuel data o.2

/-- `read_byte(out)`: emit `CMD_READ` then read 8 bits LSB-first.  Returns
(status, byte, bus); on status 1 the C function leaves `*out` unassigned, so
callers must discard the byte component. -/
def read_byte (safe : Bool) (b : Bus) : Nat × Nat × Bus :=
  let o := outp safe CMD_READ b
  if o.1 ≠ 0 then (1, 0, o.2)
  else rbGo safe 0 8 0 o.2

/-- `init_read_mode()`: `outp(0x11) || outp(0) || outp(0) || outp(0) || outp(0)`
(C short-circuit evaluation over the `CMD_READ_INIT` array). -/
def init_read_mode (safe : Bool) (b : Bus) : Nat × Bus :=
  let o1 := outp safe 0x11 b
  if o1.1 ≠ 0 then (1, o1.2) else
  let o2 := outp safe 0x00 o1.2
  if o2.1 ≠ 0 then (1, o2.2) else
  let o3 := outp safe 0x00 o2.2
  if o3.1 ≠ 0 then (1, o3.2) else
  let o4 := outp safe 0x00 o3.2
  if o4.1 ≠ 0 then (1, o4.2) else
  outp safe 0x00 o4.2

/-- `write_byte(data, address)`.  Besides the C return status, the model also
returns the list of the results of the `outp` calls it performed, in order
(instrumentation only; the C function discards the results of the 4 trailing
calls). -/
def write_byte (safe : Bool) (data address : Nat) (b : Bus) : Nat × List Nat × Bus :=
  let data := data % 256
  let address := address % 2 ^ 32
  if data = 0xff then (0, [], b)
  else
    let address := address &&& 0x1ffff
    let o1 := outp safe CMD_WRITE_BYTE b
    if o1.1 ≠ 0 then (1, [o1.1], o1.2) else
    let o2 := outp safe (((data >>> 3) &&& 0x1c) ||| (address >>> 15)) o1.2
    if o2.1 ≠ 0 then (1, [o1.1, o2.1], o2.2) else
    let o3 := outp safe (address >>> 10) o2.2
    if o3.1 ≠ 0 then (1, [o1.1, o2.1, o3.1], o3.2) else
    let o4 := outp safe (address >>> 5) o3.2
    if o4.1 ≠ 0 then (1, [o1.1, o2.1, o3.1, o4.1], o4.2) else
    let o5 := outp safe address o4.2
    if o5.1 ≠ 0 then (1, [o1.1, o2.1, o3.1, o4.1, o5.1], o5.2) else
    let o6 := outp safe data o5.2
    let o7 := outp safe data o6.2
    let o8 := outp safe data o7.2
    let o9 := outp safe data o8.2
    (0, [o1.1, o2.1, o3.1, o4.1, o5.1, o6.1, o7.1, o8.1, o9.1], o9.2)

/-! ### `erase_chip`

`erase_chip` returns `void` and checks none of its `outp`/`read_byte`
results.  The convergence loop is modelled with a fuel bound; `none` means
the loop had not converged within `fuel` iterations, `some` means the
function finished (printed "Done").  `c2init` models the value of the
uninitialized stack variable `c2` (read only if the first read fails). -/

/-- The 13 `outp(CMD_ERASE)` emissions, results ignored. -/
def eraseEmit (n : Nat) (safe : Bool) (b : Bus) : Bus :=
  match n with
  | 0 => b
  | n + 1 => eraseEmit n safe (outp safe CMD_ERASE b).2

/-- One convergence probe: `init_read_mode()` (result ignored by
`erase_chip`) followed by `read_byte(&c)`. -/
def eraseStep (safe : Bool) (b : Bus) : Nat × Nat × Bus :=
  read_byte safe (init_read_mode safe b).2

/-- The do-while convergence loop of `erase_chip`: `c1 = c2;
init_read_mode(); read_byte(&c2); while (c1 != c2)`.  A failed read leaves
`c2` unchanged (the C code never assigns `*out` on failure). -/
def eraseGo (safe : Bool) : Nat → Nat → Bus → Option Bus
  | 0, _, _ => none
  | fuel + 1, c1, b =>
    let s := eraseStep safe b
    let c2 := if s.1 = 0 then s.2.1 else c1
    if c1 ≠ c2 then eraseGo safe fuel c2 s.2.2 else some s.2.2

/-- `erase_chip()`. -/
def erase_chip (safe : Bool) (c2init fuel : Nat) (b : Bus) : Option Bus :=
  let b1 := eraseEmit 13 safe b
  let s := eraseStep safe b1
  let c2 := if s.1 = 0 then s.2.1 else c2init
  eraseGo safe fuel c2 s.2.2

/-- Bus state after the `j`-th convergence probe (`blockState safe b 0 = b`
is the state right after the 13 erase pentads). -/
def blockState (safe : Bool) (b : Bus) : Nat → Bus
  | 0 => b
  | j + 1 => (eraseStep safe (blockState safe b j)).2.2

/-- Value returned by the `j`-th convergence read (`j = 0` is the read
before the loop). -/
def blockVal (safe : Bool) (b : Bus) (j : Nat) : Nat :=
  (eraseStep safe (blockState safe b j)).2.1

/-- Status of the `j`-th convergence read. -/
def blockRes (safe : Bool) (b : Bus) (j : Nat) : Nat :=
  (eraseStep safe (blockState safe b j)).1

end Host

namespace Fw

/-! ## Bridge firmware (viper_arduino_bridge.ino)

The firmware enforces the handshake unconditionally (no safe-mode switch).
`digitalRead(PIN_ERR)` is modelled by a Boolean oracle stream (true = HIGH),
consumed one value per read: the C condition
`(check_high && digitalRead(PIN_ERR) != LOW) || (!check_high && digitalRead(PIN_ERR) != HIGH)`
short-circuits so that exactly one read happens per loop iteration. -/

/-- Firmware bus state: oracle stream for `digitalRead(PIN_ERR)` and the bus
event log. -/
structure Bus where
  err : Nat → Bool
  evs : List BusEv

/-- `digitalRead(PIN_ERR)`; logs the sampled level (1 = HIGH). -/
def readErr (b : Bus) : Bool × Bus :=
  (b.err 0,
   { err := fun k => b.err (k + 1),
     evs := b.evs ++ [BusEv.inp (if b.err 0 then 1 else 0)] })

/-- `outb(data)`: `PORTD = (((uint8_t) data) << 2) | (PORTD & 0x3)` puts
`data & 0x3f` on the six data wires D2-D7; the log records the wire state. -/
def outbF (data : Nat) (b : Bus) : Bus :=
  { b with evs := b.evs ++ [BusEv.out ((data % 256) &&& 0x3f)] }

/-- The firmware loop condition: expected level seen on PIN_ERR. -/
def smcPass (check_high : Bool) (v : Bool) : Bool :=
  (check_high && v) || (!check_high && !v)

/-- The retry loop of the firmware `safe_mode_check`; `delay(1)` = 1 ms
after every failed attempt. -/
def smcGo (check_high : Bool) (fuel : Nat) (b : Bus) : Nat × Bus :=
  match fuel with
  | 0 => (1, b)
  | fuel + 1 =>
    let s := readErr b
    if smcPass check_high s.1 then (0, s.2)
    else smcGo check_high fuel { s.2 with evs := s.2.evs ++ [BusEv.sleepUs 1000] }

/-- Firmware `safe_mode_check(check_high)`: up to `MAX_TRIES = 4` attempts. -/
def safe_mode_check (check_high : Bool) (b : Bus) : Nat × Bus :=
  smcGo check_high 4 b

/-- Identical 6-wire pentad encoding as on the host. -/
def formatted_data (data : Nat) : Nat :=
  let fd := (data % 256) &&& 0xf
  if (data % 256) &&& 0x10 != 0 then fd ||| 0x20 else fd

/-- Firmware `outp(data)`: handshake verification is unconditional. -/
def outp (data : Nat) (b : Bus) : Nat × Bus :=
  let b1 := outbF (formatted_data data) b
  let c1 := safe_mode_check true b1
  if c1.1 ≠ 0 then (1, c1.2)
  else
    let b2 := outbF (formatted_data data ||| 0x10) c1.2
    let c2 := safe_mode_check false b2
    if c2.1 ≠ 0 then (1, c2.2) else (0, c2.2)

/-- Firmware `write_byte(address, data)` (note the argument order differs
from the host, and the address is not masked to 17 bits). -/
def write_byte (address data : Nat) (b : Bus) : Nat × Bus :=
  let data := data % 256
  let address := address % 2 ^ 32
  if data = 0xff then (0, b)
  else
    let o1 := outp 0x05 b
    if o1.1 ≠ 0 then (1, o1.2) else
    let o2 := outp (((data >>> 3) &&& 0x1c) ||| (address >>> 15)) o1.2
    if o2.1 ≠ 0 then (1, o2.2) else
    let o3 := outp (address >>> 10) o2.2
    if o3.1 ≠ 0 then (1, o3.2) else
    let o4 := outp (address >>> 5) o3.2
    if o4.1 ≠ 0 then (1, o4.2) else
    let o5 := outp address o4.2
    if o5.1 ≠ 0 then (1, o5.2) else
    let o6 := outp data o5.2
    let o7 := outp data o6.2
    let o8 := outp data o7.2
    let o9 := outp data o8.2
    (0, o9.2)

/-- `read_size(first)`: decode the 22-bit length of a stream frame from the
low 6 bits of the first byte and two further bytes taken from the serial
link (`Serial.readBytes(size, 2)`; missing bytes stay 0).  Returns the
length and the remaining serial input. -/
def read_size (first : Nat) (wire : List Nat) : Nat × List Nat :=
  let s0 := wire.headD 0 % 256
  let s1 := wire.tail.headD 0 % 256
  ((((first % 256) &&& 0x3f) <<< 16) ||| (s0 <<< 8) ||| s1, wire.tail.tail)

/-- The per-byte writes a `write_byte_stream` chunk performs:
`write_byte(i, data_buffer[i % 60])` for consecutive `i`. -/
def writeSeq (buf : List Nat) (addr : Nat) (b : Bus) : Nat × Bus :=
  match buf with
  | [] => (0, b)
  | d :: rest =>
    let w := write_byte addr d b
    if w.1 ≠ 0 then (1, w.2)
    else writeSeq rest (addr + 1) w.2

/-- The chunk loop of `write_byte_stream`: at each 60-byte boundary refill
the work buffer from the serial link (`Serial.readBytes(data_buffer, 60)`
returns however many bytes arrive, at most 60), acknowledge with that count,
abort if it was short, then write the chunk's bytes to the chip.  `fuel`
bounds the number of chunks. -/
def wbsGo (total fuel i : Nat) (wire : List Nat) (b : Bus) (acks : List Nat) :
    Nat × List Nat × Bus :=
  if i < total then
    match fuel with
    | 0 => (2, acks, b)
    | fuel + 1 =>
      let r := min 60 wire.length
      let acks := acks ++ [r]
      if r < 60 then (1, acks, b)
      else
        let w := writeSeq ((wire.take 60).take (min 60 (total - i))) i b
        if w.1 ≠ 0 then (1, acks, w.2)
        else wbsGo total fuel (i + 60) (wire.drop 60) w.2 acks
  else (0, acks, b)

/-- Firmware `write_byte_stream(first)`: decode the length, then run the
chunk loop.  Returns (status, acknowledgment bytes sent, bus). -/
def write_byte_stream (first : Nat) (wire : List Nat) (b : Bus) : Nat × List Nat × Bus :=
  let sz := read_size first wire
  wbsGo sz.1 (sz.1 / 60 + 1) 0 sz.2 b []

end Fw

namespace HostSerial

/-! ## Host serial streaming layer (arduino_serial.c)

`select`-based readiness waits are modelled by a Boolean oracle (`true` =
data ready before the timeout), `read` byte counts by a second oracle. -/

/-- The 3-byte frame `serial_read_byte_stream` sends
(`0x80 | max >> 16`, `(max >> 8) & 0xff`, `max & 0xff`; `uint8_t` array). -/
def readFrame (max : Nat) : List Nat :=
  [(0x80 ||| max >>> 16) % 256, (max >>> 8) &&& 0xff, max &&& 0xff]

/-- The collection loop of `serial_read_byte_stream`: block on readiness
(timeout is a fatal stream error), then consume however many bytes arrived. -/
def srbsGo (max : Nat) (waits : Nat → Bool) (recvs : Nat → Nat) (fuel i k : Nat) : Nat :=
  if i < max then
    match fuel with
    | 0 => 2
    | fuel + 1 =>
      if !waits k then 1
      else srbsGo max waits recvs fuel (i + min (recvs k) (max - i)) (k + 1)
  else 0

/-- `serial_read_byte_stream(bios_buffer, max)`: send the read frame, then
collect `max` bytes.  Returns (status, frame sent). -/
def serial_read_byte_stream (max : Nat) (waits : Nat → Bool) (recvs : Nat → Nat) :
    Nat × List Nat :=
  (srbsGo max waits recvs max 0 0, readFrame max)

/-- The 3-byte frame `serial_write_byte_stream` sends. -/
def writeFrame (data_sz : Nat) : List Nat :=
  [(0xc0 ||| data_sz >>> 16) % 256, (data_sz >>> 8) &&& 0xff, data_sz &&& 0xff]

/-- The chunk loop of `serial_write_byte_stream`: write up to 60 data bytes,
zero-pad a short final chunk to 60 bytes on the wire, then wait up to 5 s
for one acknowledgment byte which must equal exactly 60.  `acks k` is the
acknowledgment byte received for chunk `k` (`none` = wait timed out).
Returns (status, chunks as written on the wire). -/
def swbsGo (data : List Nat) (acks : Nat → Option Nat) (fuel i k : Nat)
    (chunks : List (List Nat)) : Nat × List (List Nat) :=
  if i < data.length then
    match fuel with
    | 0 => (2, chunks)
    | fuel + 1 =>
      let left := data.length - i
      let write_sz := if left < 60 then left else 60
      let chunk := (data.drop i).take write_sz ++
        (if left < 60 then List.replicate (60 - left) 0 else [])
      let chunks := chunks ++ [chunk]
      match acks k with
      | none => (1, chunks)
      | some ack => if ack ≠ 60 then (1, chunks) else swbsGo data acks fuel (i + 60) (k + 1) chunks
  else (0, chunks)

/-- `serial_write_byte_stream(data, data_sz)`: send the write frame, then the
chunked flow-controlled payload.  Returns (status, frame, wire chunks). -/
def serial_write_byte_stream (data : List Nat) (acks : Nat → Option Nat) :
    Nat × List Nat × List (List Nat) :=
  let r := swbsGo data acks (data.length / 60 + 1) 0 0 []
  (r.1, writeFrame data.length, r.2)

/-- `read_bios()`, serial-transport path.  `initR` is the result of
`init_read_mode()`; a failure of `serial_read_byte_stream` is only printed
(`eprintf`), the function then falls through to `outp(CMD_RESET)`, prints
"Read complete" and writes the buffer out; only `fopen` failure yields 1. -/
def read_bios (initR : Nat) (waits : Nat → Bool) (recvs : Nat → Nat)
    (fopenFails : Bool) : Nat :=
  if initR ≠ 0 then 1
  else
    let _streamR := (serial_read_byte_stream Host.BIOS_SIZE waits recvs).1
    if fopenFails then 1 else 0

end HostSerial

/-! ## Derived runs used by the theorems -/

/-- A host input-sample oracle on which every handshake succeeds on the
first attempt: PIN 15 is HIGH exactly when expected (samples alternate
status byte 0x08, then 0x00). -/
def hostAck : Nat → Nat := fun k => if k % 2 == 0 then 8 else 0

/-- A firmware PIN_ERR oracle on which every handshake succeeds on the first
attempt. -/
def fwAck : Nat → Bool := fun k => k % 2 == 0

/-- The pentad payload sequence the host `write_byte` emits on a bus where
every handshake succeeds (safe mode on, as by default). -/
def hostWritePentads (data address : Nat) : List Nat :=
  pentadPayloads (Host.write_byte true data address ⟨hostAck, []⟩).2.2.evs

/-- The pentad payload sequence the firmware `write_byte` emits on a bus
where every handshake succeeds. -/
def fwWritePentads (address data : Nat) : List Nat :=
  pentadPayloads (Fw.write_byte address data ⟨fwAck, []⟩).2.evs

/-- Reconstruction of the 17 address bits from the pentad payload sequence
of a write: the low 2 bits of the pentad shared with the top data bits
(index 1), then the three 5-bit groups (indices 2-4), most significant
first. -/
def reconstructAddr (ps : List Nat) : Nat :=
  (ps.getD 1 0 % 4) * 0x8000 + ps.getD 2 0 * 0x400 + ps.getD 3 0 * 0x20 + ps.getD 4 0

/-- The four bus events of one successful host pentad emission. -/
def outpEvs (d : Nat) : List BusEv :=
  [BusEv.out (Host.formatted_data d), BusEv.inp 8,
   BusEv.out (Host.formatted_data d ||| 0x10), BusEv.inp 0]

/-- The four bus events of one successful firmware pentad emission. -/
def fwOutpEvs (d : Nat) : List BusEv :=
  [BusEv.out (Fw.formatted_data d), BusEv.inp 1,
   BusEv.out (Fw.formatted_data d ||| 0x10), BusEv.inp 0]

/-- An input oracle that acknowledges the first five pentads (10 samples)
and then never acknowledges again. -/
def tenGoodSamples : Host.Bus :=
  ⟨fun k => if k < 10 then (if k % 2 == 0 then 8 else 0) else 0, []⟩

/-! ## Bit-arithmetic bridges -/

theorem and15_eq_mod (x : Nat) : x &&& 0xf = x % 16 := by
  have h := Nat.and_pow_two_sub_one_eq_mod x 4
  norm_num at h
  exact h

theorem and31_eq_mod (x : Nat) : x &&& 0x1f = x % 32 := by
  have h := Nat.and_pow_two_sub_one_eq_mod x 5
  norm_num at h
  exact h

theorem and63_eq_mod (x : Nat) : x &&& 0x3f = x % 64 := by
  have h := Nat.and_pow_two_sub_one_eq_mod x 6
  norm_num at h
  exact h

theorem and255_eq_mod (x : Nat) : x &&& 0xff = x % 256 := by
  have h := Nat.and_pow_two_sub_one_eq_mod x 8
  norm_num at h
  exact h

theorem and17bits_eq_mod (x : Nat) : x &&& 0x1ffff = x % 0x20000 := by
  have h := Nat.and_pow_two_sub_one_eq_mod x 17
  norm_num at h
  exact h

theorem lor_eq_add (a b i : Nat) (ha : 2 ^ i ∣ a) (hb : b < 2 ^ i) : a ||| b = a + b := by
  obtain ⟨c, rfl⟩ := ha
  exact (Nat.mul_add_lt_is_or hb c).symm

theorem lor128_eq_add (y : Nat) (h : y < 128) : 0x80 ||| y = 0x80 + y := by
  have h2 := Nat.mul_add_lt_is_or (i := 7) (b := y) (by omega) 1
  norm_num at h2
  exact h2.symm

theorem and63_small (x : Nat) (h : x < 64) : (x % 256) &&& 0x3f = x := by
  rw [and63_eq_mod, Nat.mod_mod_of_dvd x (by norm_num), Nat.mod_eq_of_lt h]

/-! ## Runs of `outp` on the all-acknowledge oracles -/

theorem hostAck_shift2 : (fun k => hostAck (k + 1 + 1)) = hostAck := by
  funext k
  have h : (k + 1 + 1) % 2 = k % 2 := by omega
  simp [hostAck, h]

set_option maxRecDepth 20000 in
theorem hostFmtFacts : ∀ v < 256, Host.formatted_data v &&& 0x10 = 0
    ∧ Host.formatted_data v < 64
    ∧ ((Host.formatted_data v &&& 0xf) ||| (if Host.formatted_data v &&& 0x20 != 0 then 0x10 else 0)) = v % 32
    ∧ (Host.formatted_data v ||| 0x10) &&& 0x10 ≠ 0
    ∧ Host.formatted_data v ||| 0x10 < 64 := by decide

theorem host_fmt_mod (d : Nat) : Host.formatted_data (d % 256) = Host.formatted_data d := by
  simp [Host.formatted_data, Nat.mod_mod_of_dvd d (dvd_refl 256)]

theorem outp_hostAck (d : Nat) (evs : List BusEv) :
    Host.outp true d ⟨hostAck, evs⟩ = (0, ⟨hostAck, evs ++ outpEvs d⟩) := by
  obtain ⟨h1, h2, h3, h4, h5⟩ := hostFmtFacts (d % 256) (Nat.mod_lt d (by norm_num))
  rw [host_fmt_mod] at h1 h2 h3 h4 h5
  simp only [Host.outp, Host.safe_mode_check, Host.smcGo, Host.inbB, Host.outbB]
  norm_num [show hostAck 0 = 8 from rfl, show hostAck 1 = 0 from rfl,
    show Host.smcPass true 8 = true from rfl, show Host.smcPass false 0 = true from rfl,
    Nat.mod_eq_of_lt (show Host.formatted_data d < 256 by omega),
    Nat.mod_eq_of_lt (show Host.formatted_data d ||| 0x10 < 256 by omega),
    outpEvs, hostAck_shift2]

theorem pentadPayloads_append (l1 l2 : List BusEv) :
    pentadPayloads (l1 ++ l2) = pentadPayloads l1 ++ pentadPayloads l2 :=
  List.filterMap_append l1 l2 _

theorem outpEvs_pp (d : Nat) : pentadPayloads (outpEvs d) = [d % 32] := by
  obtain ⟨h1, h2, h3, h4, h5⟩ := hostFmtFacts (d % 256) (Nat.mod_lt d (by norm_num))
  rw [host_fmt_mod] at h1 h2 h3 h4 h5
  simp [pentadPayloads, outpEvs, List.filterMap, h1, h4]
  rw [show d % 256 % 32 = d % 32 from Nat.mod_mod_of_dvd d (by norm_num)] at h3
  simpa using h3

theorem write_byte_hostAck (data address : Nat) (h : data % 256 ≠ 0xff) :
    Host.write_byte true data address ⟨hostAck, []⟩ =
      (0, [0, 0, 0, 0, 0, 0, 0, 0, 0],
       ⟨hostAck,
        outpEvs Host.CMD_WRITE_BYTE
        ++ outpEvs ((((data % 256) >>> 3) &&& 0x1c) ||| ((address % 2 ^ 32 &&& 0x1ffff) >>> 15))
        ++ outpEvs ((address % 2 ^ 32 &&& 0x1ffff) >>> 10)
        ++ outpEvs ((address % 2 ^ 32 &&& 0x1ffff) >>> 5)
        ++ outpEvs (address % 2 ^ 32 &&& 0x1ffff)
        ++ outpEvs (data % 256) ++ outpEvs (data % 256)
        ++ outpEvs (data % 256) ++ outpEvs (data % 256)⟩) := by
  simp only [Host.write_byte, if_neg h]
  simp [outp_hostAck, List.append_assoc]

theorem hostWritePentads_eq (data address : Nat) (h : data % 256 ≠ 0xff) :
    hostWritePentads data address =
      [5,
       ((((data % 256) >>> 3) &&& 0x1c) ||| ((address % 2 ^ 32 &&& 0x1ffff) >>> 15)) % 32,
       ((address % 2 ^ 32 &&& 0x1ffff) >>> 10) % 32,
       ((address % 2 ^ 32 &&& 0x1ffff) >>> 5) % 32,
       (address % 2 ^ 32 &&& 0x1ffff) % 32,
       data % 32, data % 32, data % 32, data % 32] := by
  unfold hostWritePentads
  rw [write_byte_hostAck data address h]
  simp [pentadPayloads_append, outpEvs_pp, Host.CMD_WRITE_BYTE,
    Nat.mod_mod_of_dvd data (show (32 : Nat) ∣ 256 by norm_num)]

theorem maskOrLow2 : ∀ z < 32, ∀ y < 4, ((z &&& 0x1c) ||| y) % 32 % 4 = y := by decide

/-! ## C1: the address pentads round-trip the 17-bit address -/

/-- C1: for every 32-bit address and every data byte other than 0xFF, the
17 address bits reconstructed from the four address-carrying pentads that
the host `write_byte` emits (low 2 bits of the shared pentad at index 1,
then the three 5-bit groups), each pentad truncated to its 5-bit payload as
`outp` encodes it, equal `address & 0x1FFFF`. -/
theorem write_byte_address_roundtrip (address data : Nat)
    (ha : address < 2 ^ 32) (hd : data < 256) (hff : data ≠ 0xff) :
    reconstructAddr (hostWritePentads data address) = address &&& 0x1ffff := by
  have h : data % 256 ≠ 0xff := by rw [Nat.mod_eq_of_lt hd]; exact hff
  rw [hostWritePentads_eq data address h, Nat.mod_eq_of_lt ha, Nat.mod_eq_of_lt hd]
  rw [and17bits_eq_mod]
  simp only [reconstructAddr, List.getD, List.get?, Option.getD_some]
  have hz : data >>> 3 < 32 := by rw [Nat.shiftRight_eq_div_pow]; omega
  have hamod : address % 0x20000 < 0x20000 := Nat.mod_lt address (by norm_num)
  have hy : (address % 0x20000) >>> 15 < 4 := by rw [Nat.shiftRight_eq_div_pow]; omega
  rw [maskOrLow2 (data >>> 3) hz ((address % 0x20000) >>> 15) hy]
  rw [Nat.shiftRight_eq_div_pow, Nat.shiftRight_eq_div_pow, Nat.shiftRight_eq_div_pow]
  omega

/-- C1 witness: the round-trip at address 0x15A5A, data 0x42. -/
theorem write_byte_address_roundtrip_witness :
    (0x15A5A : Nat) < 2 ^ 32 ∧ (0x42 : Nat) < 256 ∧ (0x42 : Nat) ≠ 0xff
    ∧ reconstructAddr (hostWritePentads 0x42 0x15A5A) = 0x15A5A &&& 0x1ffff :=
  ⟨by decide, by decide, by decide,
   write_byte_address_roundtrip 0x15A5A 0x42 (by decide) (by decide) (by decide)⟩

/-! ## Firmware counterparts of the all-acknowledge run lemmas -/

theorem fw_fmt_eq_host : Fw.formatted_data = Host.formatted_data := rfl

theorem fwAck_shift2 : (fun k => fwAck (k + 1 + 1)) = fwAck := by
  funext k
  have h : (k + 1 + 1) % 2 = k % 2 := by omega
  simp [fwAck, h]

theorem outp_fwAck (d : Nat) (evs : List BusEv) :
    Fw.outp d ⟨fwAck, evs⟩ = (0, ⟨fwAck, evs ++ fwOutpEvs d⟩) := by
  obtain ⟨h1, h2, h3, h4, h5⟩ := hostFmtFacts (d % 256) (Nat.mod_lt d (by norm_num))
  rw [host_fmt_mod] at h1 h2 h3 h4 h5
  rw [← fw_fmt_eq_host] at h1 h2 h3 h4 h5
  simp only [Fw.outp, Fw.safe_mode_check, Fw.smcGo, Fw.readErr, Fw.outbF]
  norm_num [show fwAck 0 = true from rfl, show fwAck 1 = false from rfl,
    show Fw.smcPass true true = true from rfl, show Fw.smcPass false false = true from rfl,
    and63_small _ h2, and63_small _ h5, fwOutpEvs, fwAck_shift2]

theorem fwOutpEvs_pp (d : Nat) : pentadPayloads (fwOutpEvs d) = [d % 32] := by
  obtain ⟨h1, h2, h3, h4, h5⟩ := hostFmtFacts (d % 256) (Nat.mod_lt d (by norm_num))
  rw [host_fmt_mod] at h1 h2 h3 h4 h5
  rw [← fw_fmt_eq_host] at h1 h2 h3 h4 h5
  simp [pentadPayloads, fwOutpEvs, List.filterMap, h1, h4]
  rw [show d % 256 % 32 = d % 32 from Nat.mod_mod_of_dvd d (by norm_num)] at h3
  simpa using h3

theorem write_byte_fwAck (address data : Nat) (evs : List BusEv) (h : data % 256 ≠ 0xff) :
    Fw.write_byte address data ⟨fwAck, evs⟩ =
      (0,
       ⟨fwAck,
        evs
        ++ fwOutpEvs 0x05
        ++ fwOutpEvs ((((data % 256) >>> 3) &&& 0x1c) ||| ((address % 2 ^ 32) >>> 15))
        ++ fwOutpEvs ((address % 2 ^ 32) >>> 10)
        ++ fwOutpEvs ((address % 2 ^ 32) >>> 5)
        ++ fwOutpEvs (address % 2 ^ 32)
        ++ fwOutpEvs (data % 256) ++ fwOutpEvs (data % 256)
        ++ fwOutpEvs (data % 256) ++ fwOutpEvs (data % 256)⟩) := by
  simp only [Fw.write_byte, if_neg h]
  simp [outp_fwAck, List.append_assoc]

theorem fwWritePentads_eq (address data : Nat) (h : data % 256 ≠ 0xff) :
    fwWritePentads address data =
      [5,
       ((((data % 256) >>> 3) &&& 0x1c) ||| ((address % 2 ^ 32) >>> 15)) % 32,
       ((address % 2 ^ 32) >>> 10) % 32,
       ((address % 2 ^ 32) >>> 5) % 32,
       (address % 2 ^ 32) % 32,
       data % 32, data % 32, data % 32, data % 32] := by
  unfold fwWritePentads
  rw [write_byte_fwAck address data [] h]
  simp [pentadPayloads_append, fwOutpEvs_pp,
    Nat.mod_mod_of_dvd data (show (32 : Nat) ∣ 256 by norm_num)]

/-! ## C10: host and firmware write_byte emit identical pentad sequences -/

/-- C10: for every address in [0, 0x1FFFF] and every data byte, the host
and the firmware `write_byte` emit exactly the same sequence of pentad
payloads (same skip on 0xFF, same command pentad, same 4 packed
address/data pentads, same 4 trailing data pentads), even though only the
host masks the address to 17 bits. -/
theorem host_fw_write_pentads_agree (data address : Nat)
    (hd : data < 256) (ha : address ≤ 0x1ffff) :
    hostWritePentads data address = fwWritePentads address data := by
  by_cases hff : data = 0xff
  · subst hff
    rfl
  · have h : data % 256 ≠ 0xff := by rw [Nat.mod_eq_of_lt hd]; exact hff
    rw [hostWritePentads_eq data address h, fwWritePentads_eq address data h]
    have h32 : address < 2 ^ 32 := by omega
    have hmask : address % 2 ^ 32 &&& 0x1ffff = address % 2 ^ 32 := by
      rw [and17bits_eq_mod, Nat.mod_eq_of_lt]
      rw [Nat.mod_eq_of_lt h32]
      omega
    rw [hmask]

/-- C10 witness: host and firmware pentads at address 0x1A5A5, data 0x42. -/
theorem host_fw_write_pentads_agree_witness :
    (0x42 : Nat) < 256 ∧ (0x1A5A5 : Nat) ≤ 0x1ffff
    ∧ hostWritePentads 0x42 0x1A5A5 = fwWritePentads 0x1A5A5 0x42 :=
  ⟨by decide, by decide, host_fw_write_pentads_agree 0x42 0x1A5A5 (by decide) (by decide)⟩

/-! ## C6: write of 0xff is a complete no-op -/

/-- C6: for every address, `write_byte` called with data 0xFF performs no
bus transactions at all (the bus state, including the event log of
output-line writes and input samples, is returned unchanged) and returns
success, on both the host and the firmware implementation. -/
theorem write_byte_ff_no_bus_transactions (safe : Bool) (address : Nat)
    (b : Host.Bus) (fb : Fw.Bus) :
    Host.write_byte safe 0xff address b = (0, [], b) ∧
    Fw.write_byte address 0xff fb = (0, fb) := by
  exact ⟨rfl, rfl⟩

/-! ## C3: a failed bulk read is not reported by read_bios -/

/-- C3 (code bug): on a read pass whose bulk read stream fails (the
readiness wait times out, so `serial_read_byte_stream` returns 1),
`read_bios` still returns 0: the failure is only printed and the function
falls through to "Read complete". -/
theorem read_bios_swallows_stream_failure :
    (HostSerial.serial_read_byte_stream Host.BIOS_SIZE (fun _ => false) (fun _ => 1)).1 = 1
    ∧ HostSerial.read_bios 0 (fun _ => false) (fun _ => 1) false = 0 := by
  exact ⟨rfl, rfl⟩

/-! ## C5: handshake exhaustion — 4 samples, but only the host backs off
geometrically -/

/-- C5 counterexample: on a PIN_ERR line that never goes HIGH, the firmware
`safe_mode_check` sleeps 1 ms after every attempt — not the geometric
125/250/500/1000 µs schedule the claim asserts for both implementations. -/
theorem fw_backoff_not_geometric :
    sleepsOf (Fw.safe_mode_check true ⟨fun _ => false, []⟩).2.evs = [1000, 1000, 1000, 1000]
    ∧ sleepsOf (Fw.safe_mode_check true ⟨fun _ => false, []⟩).2.evs ≠ [125, 250, 500, 1000] := by
  decide

/-- C5 (amended): when the acknowledgment line never reaches the expected
level, each handshake phase samples the line exactly 4 times before
returning SignalFault on both implementations; the host sleeps 125 µs,
250 µs, 500 µs, 1 ms (geometric doubling) between/after attempts, while the
firmware sleeps a constant 1 ms after every attempt. -/
theorem safe_mode_check_exhaustion (high : Bool) (b : Host.Bus) (fb : Fw.Bus)
    (hh : ∀ k, Host.smcPass high (b.ins k % 256) = false)
    (hf : ∀ k, Fw.smcPass high (fb.err k) = false) :
    (Host.safe_mode_check high b).1 = 1
    ∧ inpCount (Host.safe_mode_check high b).2.evs = inpCount b.evs + 4
    ∧ sleepsOf (Host.safe_mode_check high b).2.evs = sleepsOf b.evs ++ [125, 250, 500, 1000]
    ∧ (Fw.safe_mode_check high fb).1 = 1
    ∧ inpCount (Fw.safe_mode_check high fb).2.evs = inpCount fb.evs + 4
    ∧ sleepsOf (Fw.safe_mode_check high fb).2.evs = sleepsOf fb.evs ++ [1000, 1000, 1000, 1000] := by
  simp only [Host.safe_mode_check, Host.smcGo, Host.inbB, Fw.safe_mode_check, Fw.smcGo,
    Fw.readErr]
  simp [hh, hf, inpCount, sleepsOf, List.filterMap_append, Nat.shiftLeft_eq]

/-- C5 witness: exhaustion on a status register stuck at 0 (host) and a
PIN_ERR line stuck LOW (firmware), expecting HIGH. -/
theorem safe_mode_check_exhaustion_witness :
    (Host.safe_mode_check true ⟨fun _ => 0, []⟩).1 = 1
    ∧ inpCount (Host.safe_mode_check true ⟨fun _ => 0, []⟩).2.evs = 4
    ∧ sleepsOf (Host.safe_mode_check true ⟨fun _ => 0, []⟩).2.evs = [125, 250, 500, 1000]
    ∧ (Fw.safe_mode_check true ⟨fun _ => false, []⟩).1 = 1
    ∧ inpCount (Fw.safe_mode_check true ⟨fun _ => false, []⟩).2.evs = 4
    ∧ sleepsOf (Fw.safe_mode_check true ⟨fun _ => false, []⟩).2.evs = [1000, 1000, 1000, 1000] :=
  safe_mode_check_exhaustion true ⟨fun _ => 0, []⟩ ⟨fun _ => false, []⟩
    (fun _ => (by decide : Host.smcPass true 0 = false))
    (fun _ => (by decide : Fw.smcPass true false = false))

/-! ## C7: the 22-bit stream-length frame round-trips -/

/-- C7: for every n up to 0x20000, the 3-byte stream frame the host builds
in `serial_read_byte_stream` is decoded by the firmware `read_size` back to
exactly n; in particular n = 0x20000, which needs the bits above 16,
round-trips unchanged. -/
theorem stream_frame_roundtrip (n : Nat) (h : n ≤ 0x20000) :
    (Fw.read_size ((HostSerial.readFrame n).headD 0) ((HostSerial.readFrame n).tail)).1 = n := by
  simp only [HostSerial.readFrame, Fw.read_size, List.headD, List.tail]
  rw [Nat.shiftRight_eq_div_pow n 16, Nat.shiftRight_eq_div_pow n 8]
  rw [lor128_eq_add (n / 2 ^ 16) (by omega)]
  rw [and255_eq_mod, and255_eq_mod, and63_eq_mod]
  rw [Nat.shiftLeft_eq, Nat.shiftLeft_eq]
  rw [lor_eq_add ((128 + n / 2 ^ 16) % 256 % 256 % 64 * 2 ^ 16)
        (n / 2 ^ 8 % 256 % 256 * 2 ^ 8) 16 (by omega) (by omega)]
  rw [lor_eq_add _ _ 8 (by omega) (by omega)]
  omega

/-- C7 witness: the full-width length 0x20000 round-trips. -/
theorem stream_frame_roundtrip_witness :
    (0x20000 : Nat) ≤ 0x20000
    ∧ (Fw.read_size ((HostSerial.readFrame 0x20000).headD 0)
        ((HostSerial.readFrame 0x20000).tail)).1 = 0x20000 :=
  ⟨by decide, stream_frame_roundtrip 0x20000 (by decide)⟩

/-! ## C8: which pentad failures abort write_byte -/

set_option maxRecDepth 40000 in
/-- C8 counterexample: a run of the host `write_byte` in which the 4
trailing redundant data pentads all fail (the `outp` results are
[0,0,0,0,0,1,1,1,1]) yet `write_byte` returns 0 (success). -/
theorem write_byte_trailing_fault_returns_success :
    (Host.write_byte true 0 0 tenGoodSamples).2.1 = [0, 0, 0, 0, 0, 1, 1, 1, 1]
    ∧ (1 : Nat) ∈ (Host.write_byte true 0 0 tenGoodSamples).2.1
    ∧ (Host.write_byte true 0 0 tenGoodSamples).1 = 0 := by
  decide

theorem smcGo_result (high : Bool) (fuel tries : Nat) (b : Host.Bus) :
    (Host.smcGo high fuel tries b).1 = 0 ∨ (Host.smcGo high fuel tries b).1 = 1 := by
  induction fuel generalizing tries b with
  | zero => right; rfl
  | succ fuel ih =>
    simp only [Host.smcGo]
    split
    · left; rfl
    · exact ih _ _

theorem outp_result (safe : Bool) (d : Nat) (b : Host.Bus) :
    (Host.outp safe d b).1 = 0 ∨ (Host.outp safe d b).1 = 1 := by
  cases safe
  · simp [Host.outp]
  · simp only [Host.outp, if_true]
    split
    · right; rfl
    split
    · right; rfl
    · left; rfl

/-- C8 (amended): for data other than 0xFF, the host `write_byte` returns
failure exactly when one of its first five pentad emissions (the command
pentad, the packed data/address pentad and the three remaining address
pentads) fails; a SignalFault in any of the 4 trailing redundant data
pentads is discarded and the call still returns success. -/
theorem write_byte_fault_iff_first_five (safe : Bool) (data address : Nat) (b : Host.Bus)
    (hff : data % 256 ≠ 0xff) :
    ((Host.write_byte safe data address b).1 = 1 ↔
      1 ∈ (Host.write_byte safe data address b).2.1.take 5) := by
  simp only [Host.write_byte, if_neg hff]
  have e1 := outp_result safe Host.CMD_WRITE_BYTE b
  rcases h1 : Host.outp safe Host.CMD_WRITE_BYTE b with ⟨r1, b1⟩
  rw [h1] at e1
  simp only [h1]
  rcases e1 with e1 | e1 <;> simp only at e1 <;> subst e1
  case inr => simp
  have e2 := outp_result safe (((data % 256) >>> 3 &&& 0x1c) ||| ((address % 2 ^ 32 &&& 0x1ffff) >>> 15)) b1
  rcases h2 : Host.outp safe (((data % 256) >>> 3 &&& 0x1c) ||| ((address % 2 ^ 32 &&& 0x1ffff) >>> 15)) b1 with ⟨r2, b2⟩
  rw [h2] at e2
  simp only [h2]
  rcases e2 with e2 | e2 <;> simp only at e2 <;> subst e2
  case inr => simp
  have e3 := outp_result safe ((address % 2 ^ 32 &&& 0x1ffff) >>> 10) b2
  rcases h3 : Host.outp safe ((address % 2 ^ 32 &&& 0x1ffff) >>> 10) b2 with ⟨r3, b3⟩
  rw [h3] at e3
  simp only [h3]
  rcases e3 with e3 | e3 <;> simp only at e3 <;> subst e3
  case inr => simp
  have e4 := outp_result safe ((address % 2 ^ 32 &&& 0x1ffff) >>> 5) b3
  rcases h4 : Host.outp safe ((address % 2 ^ 32 &&& 0x1ffff) >>> 5) b3 with ⟨r4, b4⟩
  rw [h4] at e4
  simp only [h4]
  rcases e4 with e4 | e4 <;> simp only at e4 <;> subst e4
  case inr => simp
  have e5 := outp_result safe (address % 2 ^ 32 &&& 0x1ffff) b4
  rcases h5 : Host.outp safe (address % 2 ^ 32 &&& 0x1ffff) b4 with ⟨r5, b5⟩
  rw [h5] at e5
  simp only [h5]
  rcases e5 with e5 | e5 <;> simp only at e5 <;> subst e5
  case inr => simp
  simp

set_option maxRecDepth 40000 in
/-- C8 witness: the amended equivalence evaluated on the run in which the
trailing pentads fail. -/
theorem write_byte_fault_iff_first_five_witness :
    ((0 : Nat) % 256 ≠ 0xff)
    ∧ ((Host.write_byte true 0 0 tenGoodSamples).1 = 1 ↔
        1 ∈ (Host.write_byte true 0 0 tenGoodSamples).2.1.take 5) :=
  ⟨by decide, write_byte_fault_iff_first_five true 0 0 tenGoodSamples (by decide)⟩

/-! ## Payload traces under arbitrary oracles -/

theorem smcGo_pp (high : Bool) (fuel tries : Nat) (b : Host.Bus) :
    pentadPayloads (Host.smcGo high fuel tries b).2.evs = pentadPayloads b.evs := by
  induction fuel generalizing tries b with
  | zero => rfl
  | succ fuel ih =>
    simp only [Host.smcGo, Host.inbB]
    split
    · simp [pentadPayloads_append, pentadPayloads]
    · rw [ih]
      simp [pentadPayloads_append, pentadPayloads]

theorem out_fmt_pp (d : Nat) :
    pentadPayloads [BusEv.out (Host.formatted_data d % 256)] = [d % 32] := by
  obtain ⟨h1, h2, h3, h4, h5⟩ := hostFmtFacts (d % 256) (Nat.mod_lt d (by norm_num))
  rw [host_fmt_mod] at h1 h2 h3 h4 h5
  rw [Nat.mod_eq_of_lt (show Host.formatted_data d < 256 by omega)]
  simp [pentadPayloads, List.filterMap, h1]
  rw [show d % 256 % 32 = d % 32 from Nat.mod_mod_of_dvd d (by norm_num)] at h3
  simpa using h3

theorem out_strobe_pp (d : Nat) :
    pentadPayloads [BusEv.out ((Host.formatted_data d ||| 0x10) % 256)] = [] := by
  obtain ⟨h1, h2, h3, h4, h5⟩ := hostFmtFacts (d % 256) (Nat.mod_lt d (by norm_num))
  rw [host_fmt_mod] at h1 h2 h3 h4 h5
  rw [Nat.mod_eq_of_lt (show Host.formatted_data d ||| 0x10 < 256 by omega)]
  simp [pentadPayloads, List.filterMap, h4]

/-- Whatever the handshake oracle does, one `outp(d)` appends exactly one
pentad of payload `d % 32` to the event log (the strobe-low write happens
before any handshake failure can abort the call). -/
theorem outp_pp (safe : Bool) (d : Nat) (b : Host.Bus) :
    pentadPayloads (Host.outp safe d b).2.evs = pentadPayloads b.evs ++ [d % 32] := by
  have hmain : pentadPayloads (Host.outbB (Host.formatted_data d) b).evs
      = pentadPayloads b.evs ++ [d % 32] := by
    simp [Host.outbB, pentadPayloads_append, out_fmt_pp]
  have hstrobe : ∀ b2 : Host.Bus, pentadPayloads (Host.outbB (Host.formatted_data d ||| 0x10) b2).evs
      = pentadPayloads b2.evs := by
    intro b2
    simp [Host.outbB, pentadPayloads_append, out_strobe_pp]
  cases safe
  · simp only [Host.outp, Bool.false_eq_true, if_false]
    split
    · simpa using hmain
    · rw [hstrobe]; exact hmain
  · simp only [Host.outp, if_true]
    split
    · rw [Host.safe_mode_check] at *
      rw [smcGo_pp]
      exact hmain
    · split
      · rw [Host.safe_mode_check, smcGo_pp, hstrobe, Host.safe_mode_check, smcGo_pp]
        exact hmain
      · rw [Host.safe_mode_check, smcGo_pp, hstrobe, Host.safe_mode_check, smcGo_pp]
        exact hmain

theorem eraseEmit_pp (n : Nat) (safe : Bool) (b : Host.Bus) :
    pentadPayloads (Host.eraseEmit n safe b).evs
      = pentadPayloads b.evs ++ List.replicate n 3 := by
  induction n generalizing b with
  | zero => simp [Host.eraseEmit]
  | succ n ih =>
    rw [Host.eraseEmit, ih, outp_pp]
    simp [List.replicate_succ, Host.CMD_ERASE]

/-! ## C4: erase emits 13 erase pentads, then converges on equal reads -/

theorem eraseGo_spec (safe : Bool) (b1 : Host.Bus) :
    ∀ fuel k bres, (∀ i, i ≤ k + fuel → Host.blockRes safe b1 i = 0) →
      Host.eraseGo safe fuel (Host.blockVal safe b1 k) (Host.blockState safe b1 (k + 1)) = some bres →
      ∃ j, k ≤ j ∧ j < k + fuel
        ∧ Host.blockVal safe b1 j = Host.blockVal safe b1 (j + 1)
        ∧ ∀ i, k ≤ i → i < j → Host.blockVal safe b1 i ≠ Host.blockVal safe b1 (i + 1) := by
  intro fuel
  induction fuel with
  | zero =>
    intro k bres _ hdone
    exact absurd hdone (by simp [Host.eraseGo])
  | succ fuel ih =>
    intro k bres hok hdone
    simp only [Host.eraseGo] at hdone
    have hs1 : (Host.eraseStep safe (Host.blockState safe b1 (k + 1))).1
        = Host.blockRes safe b1 (k + 1) := rfl
    have hs2 : (Host.eraseStep safe (Host.blockState safe b1 (k + 1))).2.1
        = Host.blockVal safe b1 (k + 1) := rfl
    have hs3 : (Host.eraseStep safe (Host.blockState safe b1 (k + 1))).2.2
        = Host.blockState safe b1 (k + 1 + 1) := rfl
    rw [hs1, hs2, hs3, hok (k + 1) (by omega)] at hdone
    rw [if_pos rfl] at hdone
    by_cases hv : Host.blockVal safe b1 k ≠ Host.blockVal safe b1 (k + 1)
    · rw [if_pos hv] at hdone
      obtain ⟨j, hj1, hj2, hj3, hj4⟩ := ih (k + 1) bres (fun i hi => hok i (by omega)) hdone
      refine ⟨j, by omega, by omega, hj3, fun i hik hij => ?_⟩
      by_cases hik2 : i = k
      · subst hik2; exact hv
      · exact hj4 i (by omega) hij
    · rw [if_neg hv] at hdone
      push_neg at hv
      exact ⟨k, le_refl k, by omega, hv, fun i h1 h2 => absurd h2 (by omega)⟩

/-- C4: provided every convergence read of the run succeeds, `erase_chip`
(a) emits the erase pentad exactly 13 times in its erase phase, and (b)
finishes ("Done") only at the first index at which two consecutive
byte-reads — each taken after re-running `init_read_mode`, which resets the
chip cursor to address 0 — return bit-for-bit equal values; while
consecutive reads differ it never reports completion. -/
theorem erase_thirteen_pentads_then_convergence (safe : Bool) (c2init fuel : Nat) (b : Host.Bus)
    (hok : ∀ i, i ≤ fuel → Host.blockRes safe (Host.eraseEmit 13 safe b) i = 0)
    (hdone : (Host.erase_chip safe c2init fuel b).isSome = true) :
    pentadPayloads (Host.eraseEmit 13 safe b).evs
      = pentadPayloads b.evs ++ List.replicate 13 3
    ∧ ∃ j, j < fuel
        ∧ Host.blockVal safe (Host.eraseEmit 13 safe b) j
            = Host.blockVal safe (Host.eraseEmit 13 safe b) (j + 1)
        ∧ ∀ i, i < j → Host.blockVal safe (Host.eraseEmit 13 safe b) i
            ≠ Host.blockVal safe (Host.eraseEmit 13 safe b) (i + 1) := by
  refine ⟨eraseEmit_pp 13 safe b, ?_⟩
  obtain ⟨bres, hbres⟩ := Option.isSome_iff_exists.mp hdone
  have h0 : (Host.eraseStep safe (Host.eraseEmit 13 safe b)).1
      = Host.blockRes safe (Host.eraseEmit 13 safe b) 0 := rfl
  simp only [Host.erase_chip] at hbres
  rw [h0, hok 0 (by omega), if_pos rfl] at hbres
  have hv0 : (Host.eraseStep safe (Host.eraseEmit 13 safe b)).2.1
      = Host.blockVal safe (Host.eraseEmit 13 safe b) 0 := rfl
  have hb0 : (Host.eraseStep safe (Host.eraseEmit 13 safe b)).2.2
      = Host.blockState safe (Host.eraseEmit 13 safe b) (0 + 1) := rfl
  rw [hv0, hb0] at hbres
  obtain ⟨j, _, hj2, hj3, hj4⟩ :=
    eraseGo_spec safe (Host.eraseEmit 13 safe b) fuel 0 bres
      (fun i hi => hok i (by omega)) hbres
  exact ⟨j, by omega, hj3, fun i hij => hj4 i (by omega) hij⟩

set_option maxRecDepth 100000 in
/-- C4 witness: an erase run on the all-acknowledge oracle (all reads
return 0, so the run converges after the first loop iteration). -/
theorem erase_thirteen_pentads_then_convergence_witness :
    (∀ i, i ≤ 1 → Host.blockRes true (Host.eraseEmit 13 true ⟨hostAck, []⟩) i = 0)
    ∧ (Host.erase_chip true 7 1 ⟨hostAck, []⟩).isSome = true
    ∧ (pentadPayloads (Host.eraseEmit 13 true ⟨hostAck, []⟩).evs = List.replicate 13 3
      ∧ ∃ j, j < 1
          ∧ Host.blockVal true (Host.eraseEmit 13 true ⟨hostAck, []⟩) j
              = Host.blockVal true (Host.eraseEmit 13 true ⟨hostAck, []⟩) (j + 1)
          ∧ ∀ i, i < j → Host.blockVal true (Host.eraseEmit 13 true ⟨hostAck, []⟩) i
              ≠ Host.blockVal true (Host.eraseEmit 13 true ⟨hostAck, []⟩) (i + 1)) :=
  ⟨by decide, by decide,
   erase_thirteen_pentads_then_convergence true 7 1 ⟨hostAck, []⟩ (by decide) (by decide)⟩

/-! ## C9: SignalFault during erase is swallowed, not escalated -/

set_option maxRecDepth 40000 in
/-- C9 counterexample: on a bus that never acknowledges (every pentad
emission returns SignalFault), the first convergence read of `erase_chip`
fails, yet `erase_chip` runs to completion ("Done") instead of reporting a
failure: failed reads leave the comparison value unchanged, so the loop
exits immediately. -/
theorem erase_fault_reported_done :
    Host.blockRes true (Host.eraseEmit 13 true ⟨fun _ => 0, []⟩) 0 = 1
    ∧ (Host.erase_chip true 0 1 ⟨fun _ => 0, []⟩).isSome = true := by
  decide

/-- C9 (amended): a SignalFault during erase is indeed never retried, but
it is not reported either: `erase_chip` returns no status, and when the
pre-loop read and the first loop read both fault the comparison value stays
unchanged, so `erase_chip` terminates and reports the erase done. -/
theorem erase_fault_ignored (safe : Bool) (c2init fuel : Nat) (b : Host.Bus)
    (h0 : Host.blockRes safe (Host.eraseEmit 13 safe b) 0 ≠ 0)
    (h1 : Host.blockRes safe (Host.eraseEmit 13 safe b) 1 ≠ 0) :
    (Host.erase_chip safe c2init (fuel + 1) b).isSome = true := by
  have h0' : (Host.eraseStep safe (Host.eraseEmit 13 safe b)).1 ≠ 0 := h0
  have h1' : (Host.eraseStep safe (Host.eraseStep safe (Host.eraseEmit 13 safe b)).2.2).1 ≠ 0 := h1
  simp only [Host.erase_chip, Host.eraseGo, if_neg h0', if_neg h1']
  simp

set_option maxRecDepth 40000 in
/-- C9 witness: the amended behavior on the never-acknowledging bus. -/
theorem erase_fault_ignored_witness :
    Host.blockRes true (Host.eraseEmit 13 true ⟨fun _ => 0, []⟩) 0 ≠ 0
    ∧ Host.blockRes true (Host.eraseEmit 13 true ⟨fun _ => 0, []⟩) 1 ≠ 0
    ∧ (Host.erase_chip true 5 1 ⟨fun _ => 0, []⟩).isSome = true :=
  ⟨by decide, by decide, erase_fault_ignored true 5 0 ⟨fun _ => 0, []⟩ (by decide) (by decide)⟩

/-! ## C2: streaming write of 61 bytes -/

set_option maxRecDepth 100000 in
/-- C2 counterexample: for a 61-byte streaming write, the firmware
acknowledges the zero-padded final chunk with 60 (the count
`Serial.readBytes` consumed off the wire, padding included), not with 1;
and had the firmware acknowledged with 1 as the claim states, the host
stream (which requires every acknowledgment to equal exactly 60) would
have failed rather than succeeded. -/
theorem final_chunk_ack_is_60_not_1 :
    (Fw.write_byte_stream 0xC0
      ([0, 61] ++ ((HostSerial.serial_write_byte_stream (List.replicate 61 255)
        (fun _ => some 60)).2.2).flatten) ⟨fwAck, []⟩).2.1 = [60, 60]
    ∧ ([60, 60] : List Nat) ≠ [60, 1]
    ∧ (HostSerial.serial_write_byte_stream (List.replicate 61 255)
        (fun k => if k = 0 then some 60 else some 1)).1 = 1 := by
  decide

/-- The host chunk loop on a 61-byte payload with all acknowledgments 60:
success, and exactly the full chunk followed by the zero-padded 1-byte
chunk go on the wire. -/
theorem swbs_61_run (data : List Nat) (h : data.length = 61) :
    HostSerial.serial_write_byte_stream data (fun _ => some 60)
      = (0, [0xc0, 0, 61], [data.take 60, data.drop 60 ++ List.replicate 59 0]) := by
  simp only [HostSerial.serial_write_byte_stream, HostSerial.writeFrame, HostSerial.swbsGo, h]
  norm_num [List.take_of_length_le, List.length_drop, h]
  decide

theorem write_byte_fwAck_ok (address data : Nat) (evs : List BusEv) :
    ∃ evs2, Fw.write_byte address data ⟨fwAck, evs⟩ = (0, ⟨fwAck, evs2⟩) := by
  by_cases hff : data % 256 = 0xff
  · exact ⟨evs, by simp only [Fw.write_byte, if_pos hff]⟩
  · exact ⟨_, write_byte_fwAck address data evs hff⟩

theorem writeSeq_fwAck (buf : List Nat) (addr : Nat) (evs : List BusEv) :
    ∃ evs2, Fw.writeSeq buf addr ⟨fwAck, evs⟩ = (0, ⟨fwAck, evs2⟩) := by
  induction buf generalizing addr evs with
  | nil => exact ⟨evs, rfl⟩
  | cons d rest ih =>
    obtain ⟨evs1, h1⟩ := write_byte_fwAck_ok addr d evs
    simp only [Fw.writeSeq, h1]
    norm_num
    exact ih (addr + 1) evs1

/-- The firmware chunk loop for a 61-byte stream frame followed by two
60-byte wire chunks: success with acknowledgments [60, 60]. -/
theorem wbs_61_run (c1 c2 : List Nat) (h1 : c1.length = 60) (h2 : c2.length = 60) :
    ∃ evs2, Fw.write_byte_stream 0xC0 ([0, 61] ++ (c1 ++ c2)) ⟨fwAck, []⟩
      = (0, [60, 60], ⟨fwAck, evs2⟩) := by
  simp only [Fw.write_byte_stream, Fw.read_size, List.cons_append, List.headD, List.tail]
  norm_num
  rw [show ((192 &&& 63) <<< 16 ||| 61 : Nat) = 61 from by decide]
  simp only [Fw.wbsGo]
  norm_num [List.length_append, h1, h2, List.take_left' h1, List.drop_left' h1,
    show c1.take 60 = c1 from List.take_of_length_le (by omega),
    show c2.take 60 = c2 from List.take_of_length_le (by omega)]
  obtain ⟨evsA, hA⟩ := writeSeq_fwAck c1 0 []
  rw [hA]
  norm_num
  obtain ⟨evsB, hB⟩ := writeSeq_fwAck (c2.take 1) 60 evsA
  rw [hB]
  norm_num

/-- C2 (amended): a streaming write of exactly 61 bytes performs exactly 2
chunk round-trips — one full 60-byte chunk, then one 1-byte chunk
zero-padded on the wire to 60 bytes — the firmware acknowledges each of the
two chunks with the byte 60 (the padded wire count, not the 1-byte payload
count), and on those acknowledgments the host stream succeeds. -/
theorem stream_write_61_two_chunks (data : List Nat) (h : data.length = 61) :
    (HostSerial.serial_write_byte_stream data (fun _ => some 60)).1 = 0
    ∧ (HostSerial.serial_write_byte_stream data (fun _ => some 60)).2.2
        = [data.take 60, data.drop 60 ++ List.replicate 59 0]
    ∧ (HostSerial.serial_write_byte_stream data (fun _ => some 60)).2.2.length = 2
    ∧ (Fw.write_byte_stream
         ((HostSerial.serial_write_byte_stream data (fun _ => some 60)).2.1.headD 0)
         ((HostSerial.serial_write_byte_stream data (fun _ => some 60)).2.1.tail
           ++ ((HostSerial.serial_write_byte_stream data (fun _ => some 60)).2.2).flatten)
         ⟨fwAck, []⟩).1 = 0
    ∧ (Fw.write_byte_stream
         ((HostSerial.serial_write_byte_stream data (fun _ => some 60)).2.1.headD 0)
         ((HostSerial.serial_write_byte_stream data (fun _ => some 60)).2.1.tail
           ++ ((HostSerial.serial_write_byte_stream data (fun _ => some 60)).2.2).flatten)
         ⟨fwAck, []⟩).2.1 = [60, 60] := by
  have hh := swbs_61_run data h
  rw [hh]
  have hl1 : (data.take 60).length = 60 := by rw [List.length_take]; omega
  have hl2 : (data.drop 60 ++ List.replicate 59 0).length = 60 := by
    simp [List.length_drop, h]
  obtain ⟨evs2, hf⟩ :=
    wbs_61_run (data.take 60) (data.drop 60 ++ List.replicate 59 0) hl1 hl2
  simp only [List.cons_append, List.nil_append] at hf
  simp only [List.headD, List.tail, List.flatten, List.append_nil, List.cons_append,
    List.nil_append]
  rw [hf]
  simp

set_option maxRecDepth 100000 in
/-- C2 witness: the amended statement evaluated on a concrete 61-byte
payload. -/
theorem stream_write_61_two_chunks_witness :
    (List.replicate 61 (255 : Nat)).length = 61
    ∧ ((HostSerial.serial_write_byte_stream (List.replicate 61 255) (fun _ => some 60)).1 = 0
      ∧ (HostSerial.serial_write_byte_stream (List.replicate 61 255) (fun _ => some 60)).2.2
          = [(List.replicate 61 (255 : Nat)).take 60,
             (List.replicate 61 (255 : Nat)).drop 60 ++ List.replicate 59 0]
      ∧ (HostSerial.serial_write_byte_stream (List.replicate 61 255) (fun _ => some 60)).2.2.length = 2
      ∧ (Fw.write_byte_stream
           ((HostSerial.serial_write_byte_stream (List.replicate 61 255) (fun _ => some 60)).2.1.headD 0)
           ((HostSerial.serial_write_byte_stream (List.replicate 61 255) (fun _ => some 60)).2.1.tail
             ++ ((HostSerial.serial_write_byte_stream (List.replicate 61 255) (fun _ => some 60)).2.2).flatten)
           ⟨fwAck, []⟩).1 = 0
      ∧ (Fw.write_byte_stream
           ((HostSerial.serial_write_byte_stream (List.replicate 61 255) (fun _ => some 60)).2.1.headD 0)
           ((HostSerial.serial_write_byte_stream (List.replicate 61 255) (fun _ => some 60)).2.1.tail
             ++ ((HostSerial.serial_write_byte_stream (List.replicate 61 255) (fun _ => some 60)).2.2).flatten)
           ⟨fwAck, []⟩).2.1 = [60, 60]) :=
  ⟨by decide, stream_write_61_two_chunks (List.replicate 61 255) (by decide)⟩
